import Mathlib

/-!
Verification development for the Vibha-Stock-Alerts market-data facade.

The JavaScript source is shallowly embedded: JS numbers are modelled as
rationals (`ℚ`), `Math.round` as floor-based half-up rounding, the in-memory
`Map` cache as an insertion-ordered association list, and each upstream HTTP
provider as an oracle parameter (`Option`-valued outcome).  Stateless helper
tables are translated verbatim from the source.
-/

/-- JS `Math.round`: half-up rounding, `Math.round x = ⌊x + 0.5⌋`. -/
def jsRound (x : ℚ) : ℤ := ⌊x + 1/2⌋

/-- `Math.round (x * 100) / 100`, the 2-decimal rounding idiom used throughout
the source. -/
def round2 (x : ℚ) : ℚ := (jsRound (x * 100) : ℚ) / 100

/-- A rational carries at most 2 decimal places (is an integer number of
hundredths). -/
def IsRounded2 (x : ℚ) : Prop := (x * 100).den = 1

instance (x : ℚ) : Decidable (IsRounded2 x) := by
  unfold IsRounded2; infer_instance

theorem isRounded2_round2 (x : ℚ) : IsRounded2 (round2 x) := by
  unfold IsRounded2 round2
  rw [div_mul_cancel₀]
  · exact Rat.den_intCast _
  · norm_num

theorem jsRound_intCast (z : ℤ) : jsRound (z : ℚ) = z := by
  unfold jsRound
  rw [Int.floor_eq_iff]
  constructor <;> norm_num

theorem jsRound_le_jsRound {x y : ℚ} (h : x ≤ y) : jsRound x ≤ jsRound y :=
  Int.floor_le_floor (by linarith)

theorem round2_le_round2 {x y : ℚ} (h : x ≤ y) : round2 x ≤ round2 y := by
  unfold round2
  have h1 := jsRound_le_jsRound (mul_le_mul_of_nonneg_right h (by norm_num : (0:ℚ) ≤ 100))
  have h2 : ((jsRound (x * 100) : ℚ)) ≤ ((jsRound (y * 100) : ℚ)) := by exact_mod_cast h1
  linarith

theorem round2_intCast (z : ℤ) : round2 (z : ℚ) = (z : ℚ) := by
  unfold round2
  rw [show ((z : ℚ) * 100) = ((z * 100 : ℤ) : ℚ) by push_cast; ring, jsRound_intCast]
  push_cast; ring

theorem le_round2_of_intCast_le {z : ℤ} {x : ℚ} (h : (z : ℚ) ≤ x) :
    (z : ℚ) ≤ round2 x := by
  calc (z : ℚ) = round2 (z : ℚ) := (round2_intCast z).symm
    _ ≤ round2 x := round2_le_round2 h

theorem round2_le_intCast_of_le {z : ℤ} {x : ℚ} (h : x ≤ (z : ℚ)) :
    round2 x ≤ (z : ℚ) := by
  calc round2 x ≤ round2 (z : ℚ) := round2_le_round2 h
    _ = (z : ℚ) := round2_intCast z

/-- The canonical Quote record produced by every adapter and by the synthetic
generators (a JS object; the optional `mock` flag is modelled as a `Bool`
that is `false` when the source object omits the field). -/
structure Quote where
  symbol : String
  name : String
  price : ℚ
  change : ℚ
  changePercent : ℚ
  high : ℚ
  low : ℚ
  volume : ℤ
  previousClose : ℚ
  marketCap : ℤ
  sector : String
  exchange : String
  currency : String
  marketOpen : Bool
  timestamp : String
  source : String
  mock : Bool
  deriving DecidableEq, Repr

/-- Remove the first occurrence of `pat` from `s` (JS
`String.prototype.replace` with a string pattern replaces only the first
occurrence). -/
def removeFirstAux (pat : List Char) : List Char → List Char
  | [] => []
  | c :: cs =>
    if pat.isPrefixOf (c :: cs) then (c :: cs).drop pat.length
    else c :: removeFirstAux pat cs

def removeFirst (pat s : String) : String :=
  ⟨removeFirstAux pat.toList s.toList⟩

/-- `symbol.replace('.NS', '').replace('.BO', '')`. -/
def cleanSymbol (s : String) : String :=
  removeFirst ".BO" (removeFirst ".NS" s)

/-- Does the string contain `pat` as a contiguous substring (JS
`String.prototype.includes`)? -/
def containsSub (pat s : String) : Bool :=
  (s.toList.tails.any fun t => pat.toList.isPrefixOf t)

structure CompanyInfo where
  name : String
  sector : String
  basePrice : ℕ
  volatility : ℕ
  deriving DecidableEq, Repr

/-- `INDIAN_COMPANIES` table of the enhanced `server/indian-markets-api.js`. -/
def INDIAN_COMPANIES (s : String) : Option CompanyInfo :=
  if s = "RELIANCE" then some ⟨"Reliance Industries Ltd", "Oil & Gas", 2800, 80⟩
  else if s = "TCS" then some ⟨"Tata Consultancy Services", "IT Services", 3900, 120⟩
  else if s = "HDFCBANK" then some ⟨"HDFC Bank Limited", "Banking", 1650, 60⟩
  else if s = "INFY" then some ⟨"Infosys Limited", "IT Services", 1750, 90⟩
  else if s = "HINDUNILVR" then some ⟨"Hindustan Unilever Ltd", "FMCG", 2650, 100⟩
  else if s = "ITC" then some ⟨"ITC Limited", "FMCG", 450, 25⟩
  else if s = "SBIN" then some ⟨"State Bank of India", "Banking", 650, 40⟩
  else if s = "BHARTIARTL" then some ⟨"Bharti Airtel Limited", "Telecom", 950, 50⟩
  else if s = "ASIANPAINT" then some ⟨"Asian Paints Limited", "Paints", 3200, 150⟩
  else if s = "MARUTI" then some ⟨"Maruti Suzuki India Ltd", "Automotive", 10500, 400⟩
  else if s = "ADANIGREEN" then some ⟨"Adani Green Energy Ltd", "Renewable Energy", 1200, 200⟩
  else if s = "TATASTEEL" then some ⟨"Tata Steel Limited", "Steel", 140, 30⟩
  else if s = "WIPRO" then some ⟨"Wipro Limited", "IT Services", 450, 35⟩
  else if s = "LT" then some ⟨"Larsen & Toubro Limited", "Engineering", 3400, 120⟩
  else if s = "HCLTECH" then some ⟨"HCL Technologies Limited", "IT Services", 1200, 80⟩
  else none

def getIndianCompanyName (symbol : String) : String :=
  match INDIAN_COMPANIES (cleanSymbol symbol) with
  | some info => info.name
  | none => cleanSymbol symbol

def getIndianSector (symbol : String) : String :=
  match INDIAN_COMPANIES (cleanSymbol symbol) with
  | some info => info.sector
  | none => "Unknown"

def getIndianBasePrice (symbol : String) : ℕ :=
  match INDIAN_COMPANIES (cleanSymbol symbol) with
  | some info => info.basePrice
  | none => 1000

def getIndianVolatility (symbol : String) : ℕ :=
  match INDIAN_COMPANIES (cleanSymbol symbol) with
  | some info => info.volatility
  | none => 50

/-- Outstanding-share table (crores) of `calculateIndianMarketCap` in the
enhanced module. -/
def indianShares (s : String) : ℕ :=
  if s = "RELIANCE" then 676 else if s = "TCS" then 365
  else if s = "HDFCBANK" then 547 else if s = "INFY" then 425
  else if s = "HINDUNILVR" then 235 else if s = "ITC" then 1240
  else if s = "SBIN" then 891 else if s = "BHARTIARTL" then 534
  else if s = "ASIANPAINT" then 96 else if s = "MARUTI" then 30
  else if s = "ADANIGREEN" then 154 else if s = "TATASTEEL" then 123
  else if s = "WIPRO" then 527 else if s = "LT" then 140
  else if s = "HCLTECH" then 271 else 100

def calculateIndianMarketCap (symbol : String) (price : ℚ) : ℤ :=
  jsRound ((indianShares (cleanSymbol symbol) : ℚ) * price)

/-- `generateEnhancedMockData` of the enhanced `server/indian-markets-api.js`.
`sinT` stands for `Math.sin(Date.now() / 10000)`, `rnd` and `volRnd` for the
two `Math.random()` draws, `open` for `isIndianMarketOpen()` and `ts` for the
wall-clock timestamp string. -/
def generateEnhancedMockData (symbol : String) (sinT rnd volRnd : ℚ)
    (open_ : Bool) (ts : String) : Quote :=
  let basePrice : ℚ := (getIndianBasePrice symbol : ℚ)
  let volatility : ℚ := (getIndianVolatility symbol : ℚ)
  let timeBasedVariation := sinT * (1/2)
  let randomVariation := (rnd - 1/2) * 2
  let totalVariation := (timeBasedVariation + randomVariation) * volatility
  let price := max (basePrice + totalVariation) (basePrice * (4/5))
  let change := totalVariation
  let changePercent := (change / basePrice) * 100
  { symbol := symbol
    name := getIndianCompanyName symbol
    price := round2 price
    change := round2 change
    changePercent := round2 changePercent
    high := round2 (price + |change| * (3/10))
    low := round2 (price - |change| * (3/10))
    volume := ⌊volRnd * 20000000⌋ + 5000000
    previousClose := round2 basePrice
    marketCap := calculateIndianMarketCap symbol price
    sector := getIndianSector symbol
    exchange := "NSE"
    currency := "INR"
    marketOpen := open_
    timestamp := ts
    source := "Enhanced_Mock_Data"
    mock := true }

/-! ### Generic embedding of `Array.prototype.sort` (insertion sort) -/

def insertLe {α : Type} (le : α → α → Bool) (a : α) : List α → List α
  | [] => [a]
  | b :: bs => if le a b then a :: b :: bs else b :: insertLe le a bs

def sortLe {α : Type} (le : α → α → Bool) : List α → List α
  | [] => []
  | a :: as => insertLe le a (sortLe le as)

theorem mem_insertLe {α : Type} (le : α → α → Bool) (a x : α) (l : List α) :
    x ∈ insertLe le a l ↔ x = a ∨ x ∈ l := by
  induction l with
  | nil => simp [insertLe]
  | cons b bs ih =>
    by_cases h : le a b = true <;> simp [insertLe, h, ih] <;> tauto

theorem length_insertLe {α : Type} (le : α → α → Bool) (a : α) (l : List α) :
    (insertLe le a l).length = l.length + 1 := by
  induction l with
  | nil => rfl
  | cons b bs ih =>
    by_cases h : le a b = true <;> simp [insertLe, h, ih]

theorem length_sortLe {α : Type} (le : α → α → Bool) (l : List α) :
    (sortLe le l).length = l.length := by
  induction l with
  | nil => rfl
  | cons a as ih => simp [sortLe, length_insertLe, ih]

theorem mem_sortLe {α : Type} (le : α → α → Bool) (x : α) (l : List α) :
    x ∈ sortLe le l ↔ x ∈ l := by
  induction l with
  | nil => simp [sortLe]
  | cons a as ih => simp [sortLe, mem_insertLe, ih]

/-- Insertion keeps a list pairwise-ordered, provided the comparator is total
and transitive on the elements involved. -/
theorem pairwise_insertLe {α : Type} {le : α → α → Bool} {P : α → Prop}
    (htot : ∀ x y, P x → P y → le x y = true ∨ le y x = true)
    (htrans : ∀ x y z, P x → P y → P z → le x y = true → le y z = true → le x z = true)
    {a : α} {l : List α} (ha : P a) (hl : ∀ x ∈ l, P x)
    (hp : l.Pairwise (fun x y => le x y = true)) :
    (insertLe le a l).Pairwise (fun x y => le x y = true) := by
  induction l with
  | nil => simp [insertLe]
  | cons b bs ih =>
    rcases List.pairwise_cons.mp hp with ⟨hb, hbs⟩
    by_cases h : le a b = true
    · simp only [insertLe, h, if_true]
      refine List.pairwise_cons.mpr ⟨?_, hp⟩
      intro x hx
      rcases List.mem_cons.mp hx with heq | hxs
      · subst heq; exact h
      · exact htrans a b x ha (hl b (List.mem_cons_self b bs))
          (hl x (List.mem_cons_of_mem b hxs)) h (hb x hxs)
    · simp only [insertLe, h, if_false]
      refine List.pairwise_cons.mpr
        ⟨?_, ih (fun x hx => hl x (List.mem_cons_of_mem b hx)) hbs⟩
      intro x hx
      rcases (mem_insertLe le a x bs).mp hx with heq | hxs
      · subst heq
        rcases htot x b ha (hl b (List.mem_cons_self b bs)) with h1 | h1
        · exact absurd h1 h
        · exact h1
      · exact hb x hxs

theorem pairwise_sortLe {α : Type} {le : α → α → Bool} {P : α → Prop}
    (htot : ∀ x y, P x → P y → le x y = true ∨ le y x = true)
    (htrans : ∀ x y z, P x → P y → P z → le x y = true → le y z = true → le x z = true)
    {l : List α} (hl : ∀ x ∈ l, P x) :
    (sortLe le l).Pairwise (fun x y => le x y = true) := by
  induction l with
  | nil => simp [sortLe]
  | cons a as ih =>
    exact pairwise_insertLe htot htrans (hl a (by simp))
      (fun x hx => hl x (by simp [(mem_sortLe le x as).mp hx]))
      (ih (fun x hx => hl x (by simp [hx])))

/-- A list already pairwise-ordered by `le` is left unchanged by the sort. -/
theorem sortLe_eq_of_pairwise {α : Type} {le : α → α → Bool} :
    ∀ {l : List α}, l.Pairwise (fun x y => le x y = true) → sortLe le l = l
  | [], _ => rfl
  | a :: as, h => by
    rcases List.pairwise_cons.mp h with ⟨ha, has⟩
    have ih := sortLe_eq_of_pairwise has
    simp only [sortLe, ih]
    cases as with
    | nil => rfl
    | cons b bs => simp [insertLe, ha b (by simp)]

/-! ### Provider chain resolver (`fetchIndianStockData`, enhanced module) -/

/-- The four quote-provider adapters of the enhanced module, in source-array
order. -/
inductive Provider where
  | fmp
  | twelveData
  | alphaVantage
  | yahoo
  deriving DecidableEq, Repr

/-- Environment-provided credentials (`process.env.*`); `none` models an
absent variable. -/
structure ApiEnv where
  fmpKey : Option String
  twelveKey : Option String
  alphaKey : Option String
  deriving DecidableEq, Repr

/-- `process.env.X || 'demo'`: an absent or empty (falsy) variable defaults to
the `'demo'` placeholder. -/
def effKey (k : Option String) : String :=
  match k with
  | none => "demo"
  | some s => if s = "" then "demo" else s

/-- Whether an adapter requires a configured credential (the Yahoo proxy
adapter is credential-free and always enabled). -/
def needsCred : Provider → Bool
  | .fmp => true
  | .twelveData => true
  | .alphaVantage => true
  | .yahoo => false

def credOf (env : ApiEnv) : Provider → Option String
  | .fmp => env.fmpKey
  | .twelveData => env.twelveKey
  | .alphaVantage => env.alphaKey
  | .yahoo => none

/-- The `priority` field of each provider object. -/
def providerPriority : Provider → ℕ
  | .fmp => 1
  | .twelveData => 2
  | .alphaVantage => 3
  | .yahoo => 4

/-- The `enabled` field: `KEY && KEY !== 'demo'` for credential-gated
adapters, `true` for the Yahoo proxy fallback. -/
def providerEnabled (env : ApiEnv) : Provider → Bool
  | .fmp => effKey env.fmpKey != "demo"
  | .twelveData => effKey env.twelveKey != "demo"
  | .alphaVantage => effKey env.alphaKey != "demo"
  | .yahoo => true

/-- The `providers` array in source order (which coincides with priority
order 1..4). -/
def providerList : List Provider :=
  [.fmp, .twelveData, .alphaVantage, .yahoo]

def lePriority (a b : Provider) : Bool :=
  providerPriority a ≤ providerPriority b

/-- `providers.filter(p => p.enabled).sort((a, b) => a.priority - b.priority)`. -/
def enabledProviders (env : ApiEnv) : List Provider :=
  sortLe lePriority (providerList.filter (providerEnabled env))

/-- One pass of the resolver's trial loop over a provider list: returns the
list of adapters actually invoked plus the first successful quote, if any.
`outcomes p` is the oracle for the upstream call made by adapter `p`
(`none`: the call threw / timed out / returned a malformed payload). -/
def resolveTrace (outcomes : Provider → Option Quote) :
    List Provider → List Provider × Option Quote
  | [] => ([], none)
  | p :: ps =>
    match outcomes p with
    | some q => ([p], some q)
    | none =>
      let r := resolveTrace outcomes ps
      (p :: r.1, r.2)

/-- `fetchIndianStockData` of the enhanced module: try the enabled adapters in
priority order, fall back to `generateEnhancedMockData` when all fail. -/
def fetchIndianStockData (env : ApiEnv) (outcomes : Provider → Option Quote)
    (symbol : String) (sinT rnd volRnd : ℚ) (open_ : Bool) (ts : String) : Quote :=
  match (resolveTrace outcomes (enabledProviders env)).2 with
  | some q => q
  | none => generateEnhancedMockData symbol sinT rnd volRnd open_ ts

/-- The adapters the resolver actually invokes for one request. -/
def invokedProviders (env : ApiEnv) (outcomes : Provider → Option Quote) :
    List Provider :=
  (resolveTrace outcomes (enabledProviders env)).1

/-! ### Global market data fetcher (`server/server.js`) -/

structure GlobalInfo where
  name : String
  sector : String
  basePrice : ℕ
  volatility : ℕ
  deriving DecidableEq, Repr

/-- `GLOBAL_COMPANIES` table of `server/server.js`. -/
def GLOBAL_COMPANIES (s : String) : Option GlobalInfo :=
  if s = "AAPL" then some ⟨"Apple Inc.", "Technology", 175, 8⟩
  else if s = "GOOGL" then some ⟨"Alphabet Inc.", "Technology", 142, 6⟩
  else if s = "MSFT" then some ⟨"Microsoft Corporation", "Technology", 378, 12⟩
  else if s = "AMZN" then some ⟨"Amazon.com Inc.", "E-commerce", 153, 7⟩
  else if s = "TSLA" then some ⟨"Tesla Inc.", "Electric Vehicles", 248, 15⟩
  else if s = "META" then some ⟨"Meta Platforms Inc.", "Social Media", 325, 12⟩
  else if s = "NVDA" then some ⟨"NVIDIA Corporation", "Semiconductors", 465, 20⟩
  else if s = "NFLX" then some ⟨"Netflix Inc.", "Entertainment", 445, 18⟩
  else if s = "BRK.B" then some ⟨"Berkshire Hathaway Inc.", "Conglomerate", 350, 10⟩
  else if s = "JPM" then some ⟨"JPMorgan Chase & Co.", "Banking", 145, 8⟩
  else if s = "V" then some ⟨"Visa Inc.", "Financial Services", 245, 12⟩
  else if s = "JNJ" then some ⟨"Johnson & Johnson", "Healthcare", 160, 6⟩
  else if s = "WMT" then some ⟨"Walmart Inc.", "Retail", 155, 7⟩
  else if s = "PG" then some ⟨"Procter & Gamble Co.", "Consumer Goods", 150, 5⟩
  else if s = "UNH" then some ⟨"UnitedHealth Group Inc.", "Healthcare", 525, 15⟩
  else if s = "DIS" then some ⟨"The Walt Disney Company", "Entertainment", 95, 10⟩
  else if s = "ADBE" then some ⟨"Adobe Inc.", "Software", 525, 18⟩
  else if s = "CRM" then some ⟨"Salesforce Inc.", "Software", 210, 15⟩
  else none

def getGlobalCompanyName (s : String) : String :=
  match GLOBAL_COMPANIES s with
  | some info => info.name
  | none => s

def getGlobalSector (s : String) : String :=
  match GLOBAL_COMPANIES s with
  | some info => info.sector
  | none => "Unknown"

def getGlobalBasePrice (s : String) : ℕ :=
  match GLOBAL_COMPANIES s with
  | some info => info.basePrice
  | none => 100

def getGlobalVolatility (s : String) : ℕ :=
  match GLOBAL_COMPANIES s with
  | some info => info.volatility
  | none => 5

def getGlobalExchange (s : String) : String :=
  if s ∈ ["AAPL", "GOOGL", "MSFT", "AMZN", "TSLA", "META", "NVDA", "NFLX",
      "ADBE", "CRM"] then "NASDAQ" else "NYSE"

/-- Outstanding shares (billions), `calculateGlobalMarketCap`. -/
def globalShares (s : String) : ℚ :=
  if s = "AAPL" then 157/10 else if s = "GOOGL" then 129/10
  else if s = "MSFT" then 74/10 else if s = "AMZN" then 107/10
  else if s = "TSLA" then 32/10 else if s = "META" then 25/10
  else if s = "NVDA" then 25/10 else if s = "NFLX" then 44/100
  else if s = "BRK.B" then 15/10 else if s = "JPM" then 29/10
  else if s = "V" then 21/10 else if s = "JNJ" then 26/10
  else if s = "WMT" then 27/10 else if s = "PG" then 24/10
  else if s = "UNH" then 9/10 else if s = "DIS" then 18/10
  else if s = "ADBE" then 46/100 else if s = "CRM" then 98/100
  else 1

def calculateGlobalMarketCap (symbol : String) (price : ℚ) : ℤ :=
  jsRound (globalShares symbol * price)

/-- `generateGlobalMockData` of `server/server.js` (floor ratio 0.85,
high/low spread factor 0.4). -/
def generateGlobalMockData (symbol : String) (sinT rnd volRnd : ℚ)
    (open_ : Bool) (ts : String) : Quote :=
  let basePrice : ℚ := (getGlobalBasePrice symbol : ℚ)
  let volatility : ℚ := (getGlobalVolatility symbol : ℚ)
  let timeBasedVariation := sinT * (1/2)
  let randomVariation := (rnd - 1/2) * 2
  let totalVariation := (timeBasedVariation + randomVariation) * volatility
  let price := max (basePrice + totalVariation) (basePrice * (17/20))
  let change := totalVariation
  let changePercent := (change / basePrice) * 100
  { symbol := symbol
    name := getGlobalCompanyName symbol
    price := round2 price
    change := round2 change
    changePercent := round2 changePercent
    high := round2 (price + |change| * (2/5))
    low := round2 (price - |change| * (2/5))
    volume := ⌊volRnd * 100000000⌋ + 10000000
    previousClose := round2 basePrice
    marketCap := calculateGlobalMarketCap symbol price
    sector := getGlobalSector symbol
    exchange := getGlobalExchange symbol
    currency := "USD"
    marketOpen := open_
    timestamp := ts
    source := "Mock_Global_Data"
    mock := true }

/-- An Alpha Vantage `Global Quote` payload after field-wise `parseFloat` /
`parseInt`; `none` models a missing or non-numeric field. -/
structure ParsedGlobalQuote where
  price : Option ℚ
  change : Option ℚ
  changePercent : Option ℚ
  high : Option ℚ
  low : Option ℚ
  volume : Option ℤ
  previousClose : Option ℚ
  deriving DecidableEq, Repr

/-- `fetchGlobalStockData` of `server/server.js`.  `upstream` is the oracle
for the Alpha Vantage call (`none`: request failed or quote object empty).
Returns the quote together with a flag recording whether the upstream
request was issued at all (the credential guard throws before the call). -/
def fetchGlobalStockData (alphaKey : Option String)
    (upstream : Option ParsedGlobalQuote) (symbol : String)
    (sinT rnd volRnd : ℚ) (open_ : Bool) (ts : String) : Quote × Bool :=
  if effKey alphaKey = "demo" then
    (generateGlobalMockData symbol sinT rnd volRnd open_ ts, false)
  else
    match upstream with
    | none => (generateGlobalMockData symbol sinT rnd volRnd open_ ts, true)
    | some g =>
      let price := g.price.getD 0
      let change := g.change.getD 0
      let changePercent := g.changePercent.getD 0
      ({ symbol := symbol
         name := getGlobalCompanyName symbol
         price := round2 price
         change := round2 change
         changePercent := round2 changePercent
         high := round2 (g.high.getD price)
         low := round2 (g.low.getD price)
         volume := g.volume.getD 0
         previousClose := round2 (g.previousClose.getD price)
         marketCap := calculateGlobalMarketCap symbol price
         sector := getGlobalSector symbol
         exchange := getGlobalExchange symbol
         currency := "USD"
         marketOpen := open_
         timestamp := ts
         source := "Alpha_Vantage_Global"
         mock := false }, true)

/-! ### Yahoo-proxy adapter of the enhanced module (`fetchYahooIndianStock`) -/

/-- A Yahoo chart payload after null-filtering: the last non-null close,
`meta.previousClose`, and the last non-null high / low / volume if any
(the source falls back to the current price, resp. `0`). -/
structure ParsedYahooChart where
  currentPrice : ℚ
  previousClose : ℚ
  lastHigh : Option ℚ
  lastLow : Option ℚ
  lastVolume : Option ℤ
  deriving DecidableEq, Repr

/-- `fetchYahooIndianStock` of the enhanced module, given a successfully
parsed chart payload from one of the CORS proxies. -/
def fetchYahooIndianStock (symbol : String) (chart : ParsedYahooChart)
    (open_ : Bool) (ts : String) : Quote :=
  let yahooSymbol := if containsSub "." symbol then symbol else symbol ++ ".NS"
  let currentPrice := chart.currentPrice
  let previousClose := chart.previousClose
  let change := currentPrice - previousClose
  let changePercent := (change / previousClose) * 100
  { symbol := symbol
    name := getIndianCompanyName symbol
    price := round2 currentPrice
    change := round2 change
    changePercent := round2 changePercent
    high := round2 (chart.lastHigh.getD currentPrice)
    low := round2 (chart.lastLow.getD currentPrice)
    volume := chart.lastVolume.getD 0
    previousClose := round2 previousClose
    marketCap := calculateIndianMarketCap symbol currentPrice
    sector := getIndianSector symbol
    exchange := if containsSub ".NS" yahooSymbol then "NSE" else "BSE"
    currency := "INR"
    marketOpen := open_
    timestamp := ts
    source := "Yahoo_Finance_Proxy"
    mock := false }

/-! ### Remaining adapters of the enhanced module -/

/-- An FMP `/quote` payload after parsing (`response.data[0]`); optional
fields model the `||` fallbacks applied by the source. -/
structure ParsedFMPQuote where
  name : Option String
  price : ℚ
  change : ℚ
  changesPercentage : ℚ
  dayHigh : ℚ
  dayLow : ℚ
  volume : Option ℤ
  previousClose : ℚ
  marketCap : Option ℤ
  deriving DecidableEq, Repr

/-- `fetchFMPIndianStock` of the enhanced module, given a non-empty parsed
payload. -/
def fetchFMPIndianStock (symbol : String) (d : ParsedFMPQuote)
    (open_ : Bool) (ts : String) : Quote :=
  { symbol := symbol
    name := d.name.getD (getIndianCompanyName symbol)
    price := round2 d.price
    change := round2 d.change
    changePercent := round2 d.changesPercentage
    high := round2 d.dayHigh
    low := round2 d.dayLow
    volume := d.volume.getD 0
    previousClose := round2 d.previousClose
    marketCap := d.marketCap.getD (calculateIndianMarketCap symbol d.price)
    sector := getIndianSector symbol
    exchange := "NSE"
    currency := "INR"
    marketOpen := open_
    timestamp := ts
    source := "Financial_Modeling_Prep"
    mock := false }

/-- `fetchAlphaVantageStock` of the enhanced module, given a non-empty
parsed `Global Quote` payload. -/
def fetchAlphaVantageStock (symbol : String) (g : ParsedGlobalQuote)
    (open_ : Bool) (ts : String) : Quote :=
  let price := g.price.getD 0
  let change := g.change.getD 0
  let changePercent := g.changePercent.getD 0
  { symbol := symbol
    name := getIndianCompanyName symbol
    price := round2 price
    change := round2 change
    changePercent := round2 changePercent
    high := round2 (g.high.getD price)
    low := round2 (g.low.getD price)
    volume := g.volume.getD 0
    previousClose := round2 (g.previousClose.getD price)
    marketCap := calculateIndianMarketCap symbol price
    sector := getIndianSector symbol
    exchange := "NSE"
    currency := "INR"
    marketOpen := open_
    timestamp := ts
    source := "Alpha_Vantage"
    mock := false }

/-- A Twelve Data `/quote` payload after parsing; optional fields model the
`parseFloat(...) || fallback` chains of the source. -/
structure ParsedTwelveDataQuote where
  name : Option String
  close : Option ℚ
  previous_close : Option ℚ
  high : Option ℚ
  low : Option ℚ
  volume : Option ℤ
  exchange : Option String
  deriving DecidableEq, Repr

/-- `fetchTwelveDataStock` of the enhanced module, given a non-error parsed
payload. -/
def fetchTwelveDataStock (symbol : String) (d : ParsedTwelveDataQuote)
    (open_ : Bool) (ts : String) : Quote :=
  let price := d.close.getD 0
  let previousClose := d.previous_close.getD price
  let change := price - previousClose
  let changePercent := (change / previousClose) * 100
  { symbol := symbol
    name := d.name.getD (getIndianCompanyName symbol)
    price := round2 price
    change := round2 change
    changePercent := round2 changePercent
    high := round2 (d.high.getD price)
    low := round2 (d.low.getD price)
    volume := d.volume.getD 0
    previousClose := round2 previousClose
    marketCap := calculateIndianMarketCap symbol price
    sector := getIndianSector symbol
    exchange := d.exchange.getD "NSE"
    currency := "INR"
    marketOpen := open_
    timestamp := ts
    source := "Twelve_Data"
    mock := false }

/-- All six price-like fields of a Quote carry at most 2 decimal places. -/
def Rounded2Quote (q : Quote) : Prop :=
  IsRounded2 q.price ∧ IsRounded2 q.change ∧ IsRounded2 q.changePercent ∧
  IsRounded2 q.high ∧ IsRounded2 q.low ∧ IsRounded2 q.previousClose

/-! ### Legacy `server/indian-markets-api.js` (earlier revision kept in the
repository): its Alpha Vantage Indian adapter and helper tables -/

/-- `INDIAN_COMPANIES` of the legacy module (12 entries, no price data). -/
def legacyIndianCompanies (s : String) : Option (String × String) :=
  if s = "RELIANCE" then some ("Reliance Industries Ltd", "Oil & Gas")
  else if s = "TCS" then some ("Tata Consultancy Services", "IT Services")
  else if s = "HDFCBANK" then some ("HDFC Bank Limited", "Banking")
  else if s = "INFY" then some ("Infosys Limited", "IT Services")
  else if s = "HINDUNILVR" then some ("Hindustan Unilever Ltd", "FMCG")
  else if s = "ITC" then some ("ITC Limited", "FMCG")
  else if s = "SBIN" then some ("State Bank of India", "Banking")
  else if s = "BHARTIARTL" then some ("Bharti Airtel Limited", "Telecom")
  else if s = "ASIANPAINT" then some ("Asian Paints Limited", "Paints")
  else if s = "MARUTI" then some ("Maruti Suzuki India Ltd", "Automotive")
  else if s = "ADANIGREEN" then some ("Adani Green Energy Ltd", "Renewable Energy")
  else if s = "TATASTEEL" then some ("Tata Steel Limited", "Steel")
  else none

def legacyGetIndianCompanyName (symbol : String) : String :=
  match legacyIndianCompanies (cleanSymbol symbol) with
  | some info => info.1
  | none => cleanSymbol symbol

def legacyGetIndianSector (symbol : String) : String :=
  match legacyIndianCompanies (cleanSymbol symbol) with
  | some info => info.2
  | none => "Unknown"

/-- Legacy share table (12 entries). -/
def legacyIndianShares (s : String) : ℕ :=
  if s = "RELIANCE" then 676 else if s = "TCS" then 365
  else if s = "HDFCBANK" then 547 else if s = "INFY" then 425
  else if s = "HINDUNILVR" then 235 else if s = "ITC" then 1240
  else if s = "SBIN" then 891 else if s = "BHARTIARTL" then 534
  else if s = "ASIANPAINT" then 96 else if s = "MARUTI" then 30
  else if s = "ADANIGREEN" then 154 else if s = "TATASTEEL" then 123
  else 100

def legacyCalculateIndianMarketCap (symbol : String) (price : ℚ) : ℤ :=
  jsRound ((legacyIndianShares (cleanSymbol symbol) : ℚ) * price)

/-- `fetchAlphaVantageIndianStock` of the legacy module, given a non-empty
parsed `Global Quote` payload.  Note: unlike every other adapter, this one
passes the upstream numbers through without 2-decimal rounding. -/
def fetchAlphaVantageIndianStock (symbol : String) (g : ParsedGlobalQuote)
    (open_ : Bool) (ts : String) : Quote :=
  { symbol := symbol
    name := legacyGetIndianCompanyName symbol
    price := g.price.getD 0
    change := g.change.getD 0
    changePercent := g.changePercent.getD 0
    high := g.high.getD 0
    low := g.low.getD 0
    volume := g.volume.getD 0
    previousClose := g.previousClose.getD 0
    marketCap := legacyCalculateIndianMarketCap symbol (g.price.getD 0)
    sector := legacyGetIndianSector symbol
    exchange := "BSE"
    currency := "INR"
    marketOpen := open_
    timestamp := ts
    source := "Alpha_Vantage_Indian"
    mock := false }

/-! ### Quote cache (`server/server.js` lines 50-67) -/

/-- One cache entry: `{ data, timestamp, ttl }`. -/
structure CacheEntry (V : Type) where
  data : V
  timestamp : ℤ
  ttl : ℤ
  deriving DecidableEq, Repr

/-- The JS `Map` modelled as an insertion-ordered association list with
string keys (first occurrence wins on lookup; `set` on an existing key keeps
its position, a new key is appended at the end). -/
abbrev Cache (V : Type) : Type := List (String × CacheEntry V)

def cacheLookup {V : Type} (c : Cache V) (key : String) : Option (CacheEntry V) :=
  match c.find? (fun e => e.1 = key) with
  | some e => some e.2
  | none => none

def cacheHasKey {V : Type} (c : Cache V) (key : String) : Bool :=
  c.any (fun e => e.1 = key)

/-- `Map.prototype.delete` (no-op when the key is absent; a `Map` holds at
most one entry per key, so deletion removes the first — and only —
occurrence). -/
def cacheDelete {V : Type} (c : Cache V) (key : String) : Cache V :=
  c.eraseP (fun e => e.1 == key)

/-- `Map.prototype.set`: overwrite in place, or append a fresh key. -/
def mapSet {V : Type} (c : Cache V) (key : String) (e : CacheEntry V) : Cache V :=
  if cacheHasKey c key then
    c.map (fun p => if p.1 = key then (key, e) else p)
  else
    c ++ [(key, e)]

/-- `CACHE_DURATION = 60000`. -/
def CACHE_DURATION : ℤ := 60000

/-- `LONG_CACHE_DURATION = 300000`. -/
def LONG_CACHE_DURATION : ℤ := 300000

/-- `getCachedData`: returns the payload on a fresh hit; otherwise deletes
the key ("Clean up expired cache") and returns `null`.  The function both
reads and, on the miss path, writes the cache, so it returns the new cache
state alongside the result. -/
def getCachedData {V : Type} (now : ℤ) (c : Cache V) (key : String) :
    Option V × Cache V :=
  match cacheLookup c key with
  | some e =>
    if now - e.timestamp < e.ttl then (some e.data, c)
    else (none, cacheDelete c key)
  | none => (none, cacheDelete c key)

/-- `setCachedData`: stamp and store, then evict the single oldest-inserted
entry when the entry count exceeds 1000. -/
def setCachedData {V : Type} (now : ℤ) (c : Cache V) (key : String) (data : V)
    (ttl : ℤ) : Cache V :=
  let c' := mapSet c key ⟨data, now, ttl⟩
  if 1000 < c'.length then
    match c' with
    | [] => []
    | oldest :: _ => cacheDelete c' oldest.1
  else c'

/-! ### Aggregation endpoint logic (`server/server.js`) -/

def INDIAN_SYMBOLS : List String :=
  ["RELIANCE", "TCS", "HDFCBANK", "INFY", "HINDUNILVR", "ITC", "SBIN",
   "BHARTIARTL", "ASIANPAINT", "MARUTI", "ADANIGREEN", "TATASTEEL",
   "WIPRO", "LT", "HCLTECH", "ICICIBANK", "KOTAKBANK", "BAJFINANCE"]

def GLOBAL_SYMBOLS : List String :=
  ["AAPL", "GOOGL", "MSFT", "AMZN", "TSLA", "META", "NVDA", "NFLX",
   "BRK.B", "JPM", "V", "JNJ", "WMT", "PG", "UNH", "DIS", "ADBE", "CRM"]

/-- The unified ticker's comparator, as a boolean "sorts no later than"
relation (`cmp a b <= 0`): during Indian market hours INR quotes sort before
USD quotes; otherwise by descending absolute `changePercent`. -/
def quoteLe (indianOpen : Bool) (a b : Quote) : Bool :=
  if indianOpen then
    if a.currency = "INR" ∧ b.currency = "USD" then true
    else if a.currency = "USD" ∧ b.currency = "INR" then false
    else |b.changePercent| ≤ |a.changePercent|
  else |b.changePercent| ≤ |a.changePercent|

/-- Descending absolute `changePercent`, the comparator of the single-market
endpoints. -/
def absCpDescLe (a b : Quote) : Bool :=
  |b.changePercent| ≤ |a.changePercent|

/-- Summary object of the unified `/api/stocks/ticker` endpoint. -/
structure TickerSummary where
  total : ℕ
  indian : ℕ
  global : ℕ
  sources : List String
  errors : ℕ
  mockData : ℕ
  cached : Bool
  timestamp : ℤ
  indianOpen : Bool
  globalOpen : Bool
  deriving DecidableEq, Repr

structure TickerResponse where
  summary : TickerSummary
  data : List Quote
  deriving DecidableEq, Repr

/-- Summary object of the dedicated single-market endpoints
(`/api/stocks/indian`, `/api/stocks/global`): a `market` string instead of
the unified endpoint's `indian` / `global` count fields. -/
structure MarketSummary where
  total : ℕ
  market : String
  sources : List String
  errors : ℕ
  mockData : ℕ
  gainers : ℕ
  losers : ℕ
  cached : Bool
  timestamp : ℤ
  marketOpen : Bool
  deriving DecidableEq, Repr

structure MarketResponse where
  summary : MarketSummary
  data : List Quote
  deriving DecidableEq, Repr

/-- `Math.ceil(limit * 0.6)` on a natural limit. -/
def ceil60 (limit : ℕ) : ℕ := (3 * limit + 4) / 5

/-- `Math.floor(limit * 0.4)` on a natural limit. -/
def floor40 (limit : ℕ) : ℕ := (2 * limit) / 5

/-- The cache-miss body of the unified ticker endpoint: select the per-market
symbol slices, resolve each symbol (Indian resolutions are pushed before
global ones, and `Promise.all` preserves that order), sort with the
currency-priority comparator and truncate to `limit`.  `fetchI` / `fetchG`
bundle `fetchIndianStockData` / `fetchGlobalStockData` with their per-symbol
oracles. -/
def tickerResponse (fetchI fetchG : String → Quote) (limit : ℕ)
    (indianOpen globalOpen : Bool) (includeIndian includeGlobal : Bool)
    (now : ℤ) : TickerResponse :=
  let indianStocks :=
    if includeIndian then (INDIAN_SYMBOLS.take (ceil60 limit)).map fetchI else []
  let globalStocks :=
    if includeGlobal then (GLOBAL_SYMBOLS.take (floor40 limit)).map fetchG else []
  let allStocks := indianStocks ++ globalStocks
  let finalData := (sortLe (quoteLe indianOpen) allStocks).take limit
  { summary :=
      { total := finalData.length
        indian := (finalData.filter (fun s => s.currency = "INR")).length
        global := (finalData.filter (fun s => s.currency = "USD")).length
        sources := (finalData.map (fun s => s.source)).eraseDups
        errors := 0
        mockData := (finalData.filter (fun s => s.mock)).length
        cached := false
        timestamp := now
        indianOpen := indianOpen
        globalOpen := globalOpen }
    data := finalData }

/-- The cache-miss body of `/api/stocks/indian`: fetch the first `limit`
Indian symbols, sort by descending `|changePercent|`, and build the
single-market summary. -/
def indianResponse (fetchI : String → Quote) (limit : ℕ) (indianOpen : Bool)
    (now : ℤ) : MarketResponse :=
  let stocks := sortLe absCpDescLe ((INDIAN_SYMBOLS.take limit).map fetchI)
  { summary :=
      { total := stocks.length
        market := "indian"
        sources := (stocks.map (fun s => s.source)).eraseDups
        errors := 0
        mockData := (stocks.filter (fun s => s.mock)).length
        gainers := (stocks.filter (fun s => 0 < s.change)).length
        losers := (stocks.filter (fun s => s.change < 0)).length
        cached := false
        timestamp := now
        marketOpen := indianOpen }
    data := stocks }

/-- The cache-miss body of `/api/stocks/global`. -/
def globalResponse (fetchG : String → Quote) (limit : ℕ) (globalOpen : Bool)
    (now : ℤ) : MarketResponse :=
  let stocks := sortLe absCpDescLe ((GLOBAL_SYMBOLS.take limit).map fetchG)
  { summary :=
      { total := stocks.length
        market := "global"
        sources := (stocks.map (fun s => s.source)).eraseDups
        errors := 0
        mockData := (stocks.filter (fun s => s.mock)).length
        gainers := (stocks.filter (fun s => 0 < s.change)).length
        losers := (stocks.filter (fun s => s.change < 0)).length
        cached := false
        timestamp := now
        marketOpen := globalOpen }
    data := stocks }

/-- Raw query parameters of a `/api/stocks/ticker` request.  The limit is
modelled post-`parseInt` (a natural number, `none` when the parameter is
absent). -/
structure TickerQuery where
  indian : Option String
  global : Option String
  limit : Option ℕ
  deriving DecidableEq, Repr

/-- `req.query.indian !== 'false'` (absence defaults to inclusion). -/
def includeIndianOf (q : TickerQuery) : Bool := q.indian != some "false"

def includeGlobalOf (q : TickerQuery) : Bool := q.global != some "false"

/-- `parseInt(req.query.limit) || 15` (`0` is falsy and also falls back). -/
def effLimit (l : Option ℕ) (dflt : ℕ) : ℕ :=
  match l with
  | none => dflt
  | some n => if n = 0 then dflt else n

/-- Result of an HTTP handler: a JSON payload or a redirect. -/
inductive HandlerResult (V : Type) where
  | ok (v : V)
  | redirect (url : String)
  deriving DecidableEq, Repr

/-- The unified `/api/stocks/ticker` handler: parse the flags, redirect to a
dedicated endpoint when exactly one market is requested, otherwise serve the
cached payload or compute a fresh one. -/
def tickerHandler (q : TickerQuery) (cached : Option TickerResponse)
    (fetchI fetchG : String → Quote) (indianOpen globalOpen : Bool)
    (now : ℤ) : HandlerResult TickerResponse :=
  let includeIndian := includeIndianOf q
  let includeGlobal := includeGlobalOf q
  let limit := effLimit q.limit 15
  if includeIndian && !includeGlobal then
    .redirect ("/api/stocks/indian?limit=" ++ toString limit)
  else if includeGlobal && !includeIndian then
    .redirect ("/api/stocks/global?limit=" ++ toString limit)
  else
    match cached with
    | some r => .ok r
    | none =>
      .ok (tickerResponse fetchI fetchG limit indianOpen globalOpen
        includeIndian includeGlobal now)

/-! ### Resolver lemmas -/

theorem resolveTrace_append_rest (outcomes : Provider → Option Quote) :
    ∀ ps : List Provider, ∃ rest, ps = (resolveTrace outcomes ps).1 ++ rest := by
  intro ps
  induction ps with
  | nil => exact ⟨[], rfl⟩
  | cons p ps ih =>
    cases h : outcomes p with
    | some q => exact ⟨ps, by simp [resolveTrace, h]⟩
    | none =>
      obtain ⟨rest, hr⟩ := ih
      exact ⟨rest, by simp only [resolveTrace, h, List.cons_append]; exact congrArg _ hr⟩

theorem resolveTrace_dropLast_fail (outcomes : Provider → Option Quote) :
    ∀ ps : List Provider, ∀ p ∈ (resolveTrace outcomes ps).1.dropLast,
      outcomes p = none := by
  intro ps
  induction ps with
  | nil => intro p hp; simp [resolveTrace] at hp
  | cons a as ih =>
    intro p hp
    cases h : outcomes a with
    | some q => simp [resolveTrace, h] at hp
    | none =>
      simp only [resolveTrace, h] at hp
      cases hr : (resolveTrace outcomes as).1 with
      | nil => rw [hr] at hp; simp at hp
      | cons b bs =>
        rw [hr] at hp
        rw [List.dropLast_cons₂] at hp
        rcases List.mem_cons.mp hp with heq | hmem
        · subst heq; exact h
        · exact ih p (by rw [hr]; exact hmem)

theorem resolveTrace_none (outcomes : Provider → Option Quote) :
    ∀ ps : List Provider, (resolveTrace outcomes ps).2 = none →
      (resolveTrace outcomes ps).1 = ps ∧ ∀ p ∈ ps, outcomes p = none := by
  intro ps
  induction ps with
  | nil => intro _; exact ⟨rfl, by simp⟩
  | cons a as ih =>
    intro hres
    cases h : outcomes a with
    | some q => rw [show resolveTrace outcomes (a :: as) = ([a], some q) by
        simp [resolveTrace, h]] at hres; simp at hres
    | none =>
      simp only [resolveTrace, h] at hres ⊢
      obtain ⟨h1, h2⟩ := ih hres
      refine ⟨by rw [h1], ?_⟩
      intro p hp
      rcases List.mem_cons.mp hp with heq | hmem
      · subst heq; exact h
      · exact h2 p hmem

theorem resolveTrace_some (outcomes : Provider → Option Quote) :
    ∀ (ps : List Provider) (q : Quote), (resolveTrace outcomes ps).2 = some q →
      ∃ p, (resolveTrace outcomes ps).1.getLast? = some p ∧
        outcomes p = some q := by
  intro ps
  induction ps with
  | nil => intro q hq; simp [resolveTrace] at hq
  | cons a as ih =>
    intro q hq
    cases h : outcomes a with
    | some q' =>
      rw [show resolveTrace outcomes (a :: as) = ([a], some q') by
        simp [resolveTrace, h]] at hq ⊢
      simp only [Option.some.injEq] at hq
      exact ⟨a, by simp, by rw [h, hq]⟩
    | none =>
      simp only [resolveTrace, h] at hq ⊢
      obtain ⟨p, hlast, hout⟩ := ih q hq
      refine ⟨p, ?_, hout⟩
      cases hr : (resolveTrace outcomes as).1 with
      | nil => rw [hr] at hlast; simp at hlast
      | cons b bs =>
        rw [hr] at hlast
        rw [List.getLast?_cons_cons]
        exact hlast

theorem resolveTrace_all_fail (outcomes : Provider → Option Quote) :
    ∀ ps : List Provider, (∀ p ∈ ps, outcomes p = none) →
      resolveTrace outcomes ps = (ps, none) := by
  intro ps
  induction ps with
  | nil => intro _; rfl
  | cons a as ih =>
    intro hfail
    have ha : outcomes a = none := hfail a (List.mem_cons_self a as)
    simp only [resolveTrace, ha]
    rw [ih (fun p hp => hfail p (List.mem_cons_of_mem a hp))]

theorem enabledProviders_eq (env : ApiEnv) :
    enabledProviders env = providerList.filter (providerEnabled env) := by
  unfold enabledProviders
  exact sortLe_eq_of_pairwise
    (List.Pairwise.sublist (List.filter_sublist _) (by decide))

theorem enabledProviders_pairwise_lt (env : ApiEnv) :
    (enabledProviders env).Pairwise
      (fun a b => providerPriority a < providerPriority b) := by
  rw [enabledProviders_eq]
  exact List.Pairwise.sublist (List.filter_sublist _) (by decide)

theorem enabledProviders_nodup (env : ApiEnv) : (enabledProviders env).Nodup := by
  rw [enabledProviders_eq]
  exact List.Nodup.sublist (List.filter_sublist _) (by decide)

/-! ### Claim theorems: resolver behaviour -/

/-- C1: resolution is total — `fetchIndianStockData` always returns a Quote,
and when every enabled adapter fails it returns exactly the synthetic
generator's quote, which carries `mock = true` and the mock source tag. -/
theorem resolver_total_fallback_is_mock (env : ApiEnv)
    (outcomes : Provider → Option Quote) (symbol : String)
    (sinT rnd volRnd : ℚ) (open_ : Bool) (ts : String)
    (hfail : ∀ p ∈ enabledProviders env, outcomes p = none) :
    fetchIndianStockData env outcomes symbol sinT rnd volRnd open_ ts =
      generateEnhancedMockData symbol sinT rnd volRnd open_ ts ∧
    (fetchIndianStockData env outcomes symbol sinT rnd volRnd open_ ts).mock
      = true ∧
    (fetchIndianStockData env outcomes symbol sinT rnd volRnd open_ ts).source
      = "Enhanced_Mock_Data" := by
  have h := resolveTrace_all_fail outcomes (enabledProviders env) hfail
  have heq : fetchIndianStockData env outcomes symbol sinT rnd volRnd open_ ts =
      generateEnhancedMockData symbol sinT rnd volRnd open_ ts := by
    unfold fetchIndianStockData
    rw [h]
  refine ⟨heq, ?_, ?_⟩ <;> rw [heq] <;> rfl

/-- Witness for C1 at a concrete no-credential environment where the
credential-free Yahoo adapter also fails. -/
theorem resolver_total_fallback_is_mock_witness :
    (∀ p ∈ enabledProviders ⟨none, none, none⟩,
      (fun _ : Provider => (none : Option Quote)) p = none) ∧
    (fetchIndianStockData ⟨none, none, none⟩ (fun _ => none) "RELIANCE"
      0 (1/2) 0 false "t" =
        generateEnhancedMockData "RELIANCE" 0 (1/2) 0 false "t" ∧
    (fetchIndianStockData ⟨none, none, none⟩ (fun _ => none) "RELIANCE"
      0 (1/2) 0 false "t").mock = true ∧
    (fetchIndianStockData ⟨none, none, none⟩ (fun _ => none) "RELIANCE"
      0 (1/2) 0 false "t").source = "Enhanced_Mock_Data") :=
  ⟨fun _ _ => rfl,
    resolver_total_fallback_is_mock ⟨none, none, none⟩ (fun _ => none)
      "RELIANCE" 0 (1/2) 0 false "t" (fun _ _ => rfl)⟩

/-- C2: the resolver tries adapters in strictly ascending priority order and
short-circuits on the first success — the invoked adapters form a prefix of
the priority-sorted enabled list, every invoked adapter except the last
failed, a successful result comes from the last invoked adapter, and the
enabled adapters after the invoked prefix are never invoked. -/
theorem resolver_priority_order_short_circuit (env : ApiEnv)
    (outcomes : Provider → Option Quote) :
    (∃ rest, enabledProviders env = invokedProviders env outcomes ++ rest ∧
        ∀ r ∈ rest, r ∉ invokedProviders env outcomes) ∧
    (invokedProviders env outcomes).Pairwise
      (fun a b => providerPriority a < providerPriority b) ∧
    (∀ p ∈ (invokedProviders env outcomes).dropLast, outcomes p = none) ∧
    (∀ q : Quote, (resolveTrace outcomes (enabledProviders env)).2 = some q →
      ∃ p, (invokedProviders env outcomes).getLast? = some p ∧
        outcomes p = some q) := by
  obtain ⟨rest, hrest⟩ := resolveTrace_append_rest outcomes (enabledProviders env)
  rw [show (resolveTrace outcomes (enabledProviders env)).1 =
    invokedProviders env outcomes from rfl] at hrest
  have hnodup : (invokedProviders env outcomes ++ rest).Nodup := by
    rw [← hrest]; exact enabledProviders_nodup env
  obtain ⟨-, -, hdisj⟩ := List.nodup_append.mp hnodup
  refine ⟨⟨rest, hrest, fun r hr hmem => hdisj hmem hr⟩, ?_, ?_, ?_⟩
  · exact List.Pairwise.sublist
      (hrest ▸ List.sublist_append_left (invokedProviders env outcomes) rest)
      (enabledProviders_pairwise_lt env)
  · exact resolveTrace_dropLast_fail outcomes (enabledProviders env)
  · exact resolveTrace_some outcomes (enabledProviders env)

/-- C5: a credential-gated adapter whose credential is absent or the
`'demo'` placeholder is filtered out of the trial sequence — it is disabled,
not in the enabled list, and never invoked; likewise the global fetcher's
credential guard skips the upstream call entirely and serves mock data. -/
theorem disabled_adapter_excluded (env : ApiEnv) (p : Provider)
    (outcomes : Provider → Option Quote)
    (hneeds : needsCred p = true)
    (hbad : credOf env p = none ∨ credOf env p = some "demo") :
    providerEnabled env p = false ∧
    p ∉ enabledProviders env ∧
    p ∉ invokedProviders env outcomes ∧
    (∀ (upstream : Option ParsedGlobalQuote) (symbol : String)
        (sinT rnd volRnd : ℚ) (open_ : Bool) (ts : String),
      (env.alphaKey = none ∨ env.alphaKey = some "demo") →
      (fetchGlobalStockData env.alphaKey upstream symbol sinT rnd volRnd
        open_ ts).2 = false ∧
      (fetchGlobalStockData env.alphaKey upstream symbol sinT rnd volRnd
        open_ ts).1 = generateGlobalMockData symbol sinT rnd volRnd open_ ts) := by
  have hdis : providerEnabled env p = false := by
    cases p with
    | yahoo => simp [needsCred] at hneeds
    | fmp =>
      rcases hbad with hb | hb <;> simp only [credOf] at hb <;>
        simp [providerEnabled, effKey, hb]
    | twelveData =>
      rcases hbad with hb | hb <;> simp only [credOf] at hb <;>
        simp [providerEnabled, effKey, hb]
    | alphaVantage =>
      rcases hbad with hb | hb <;> simp only [credOf] at hb <;>
        simp [providerEnabled, effKey, hb]
  have hnotmem : p ∉ enabledProviders env := by
    rw [enabledProviders_eq]
    intro hmem
    have := (List.mem_filter.mp hmem).2
    rw [hdis] at this
    exact Bool.false_ne_true this
  refine ⟨hdis, hnotmem, ?_, ?_⟩
  · intro hmem
    obtain ⟨rest, hrest⟩ := resolveTrace_append_rest outcomes (enabledProviders env)
    exact hnotmem (hrest ▸ List.mem_append_left rest hmem)
  · intro upstream symbol sinT rnd volRnd open_ ts halpha
    have hk : effKey env.alphaKey = "demo" := by
      rcases halpha with hb | hb <;> simp [effKey, hb]
    unfold fetchGlobalStockData
    rw [hk]
    exact ⟨rfl, rfl⟩

/-- Witness for C5: with `FMP_API_KEY = 'demo'` and the Alpha Vantage key
absent, the FMP adapter is disabled and not invoked, and the global fetcher
skips its upstream call. -/
theorem disabled_adapter_excluded_witness :
    (needsCred Provider.fmp = true ∧
      (credOf ⟨some "demo", none, none⟩ Provider.fmp = none ∨
        credOf ⟨some "demo", none, none⟩ Provider.fmp = some "demo")) ∧
    providerEnabled ⟨some "demo", none, none⟩ Provider.fmp = false ∧
    Provider.fmp ∉ enabledProviders ⟨some "demo", none, none⟩ ∧
    Provider.fmp ∉ invokedProviders ⟨some "demo", none, none⟩ (fun _ => none) ∧
    (fetchGlobalStockData (ApiEnv.alphaKey ⟨some "demo", none, none⟩) none
      "AAPL" 0 0 0 false "t").2 = false := by
  obtain ⟨h1, h2, h3, h4⟩ :=
    disabled_adapter_excluded ⟨some "demo", none, none⟩ Provider.fmp
      (fun _ => none) rfl (Or.inr rfl)
  exact ⟨⟨rfl, Or.inr rfl⟩, h1, h2, h3,
    (h4 none "AAPL" 0 0 0 false "t" (Or.inl rfl)).1⟩

/-! ### Claim theorems: quote cache -/

theorem length_mapSet_le {V : Type} (c : Cache V) (key : String)
    (e : CacheEntry V) : (mapSet c key e).length ≤ c.length + 1 := by
  unfold mapSet
  split
  · rw [List.length_map]; omega
  · simp

theorem mapSet_of_not_has {V : Type} (c : Cache V) (key : String)
    (e : CacheEntry V) (h : cacheHasKey c key = false) :
    mapSet c key e = c ++ [(key, e)] := by
  unfold mapSet
  rw [h]
  simp

/-- C3: after any `set` on a cache within the 1000-entry ceiling the cache
stays within the ceiling, and an insertion that would exceed it evicts
exactly the single oldest-inserted entry (the head of the insertion-ordered
list), keeping everything else. -/
theorem cache_set_bound_evicts_oldest {V : Type} (now : ℤ) (c : Cache V)
    (key : String) (data : V) (ttl : ℤ) (hsize : c.length ≤ 1000) :
    (setCachedData now c key data ttl).length ≤ 1000 ∧
    (c.length = 1000 → cacheHasKey c key = false →
      setCachedData now c key data ttl =
        c.drop 1 ++ [(key, ⟨data, now, ttl⟩)]) := by
  constructor
  · unfold setCachedData
    by_cases hgt : 1000 < (mapSet c key ⟨data, now, ttl⟩).length
    · rw [if_pos hgt]
      have hle := length_mapSet_le c key ⟨data, now, ttl⟩
      cases hm : mapSet c key ⟨data, now, ttl⟩ with
      | nil => simp
      | cons o t =>
        rw [hm] at hle
        show (cacheDelete (o :: t) o.1).length ≤ 1000
        rw [show cacheDelete (o :: t) o.1 = t from List.eraseP_cons_of_pos (by simp)]
        simp only [List.length_cons] at hle
        omega
    · rw [if_neg hgt]
      have hle := length_mapSet_le c key ⟨data, now, ttl⟩
      omega
  · intro h1000 hnk
    unfold setCachedData
    rw [mapSet_of_not_has c key _ hnk]
    have hlen : (c ++ [(key, (⟨data, now, ttl⟩ : CacheEntry V))]).length = 1001 := by
      simp [h1000]
    rw [if_pos (by omega)]
    cases c with
    | nil => simp at h1000
    | cons e0 t =>
      show cacheDelete (e0 :: (t ++ [(key, ⟨data, now, ttl⟩)])) e0.1 =
        (e0 :: t).drop 1 ++ [(key, ⟨data, now, ttl⟩)]
      rw [show cacheDelete (e0 :: (t ++ [(key, (⟨data, now, ttl⟩ : CacheEntry V))])) e0.1 =
        t ++ [(key, ⟨data, now, ttl⟩)] from List.eraseP_cons_of_pos (by simp)]
      rfl

/-- Witness for C3 at the empty cache. -/
theorem cache_set_bound_evicts_oldest_witness :
    ([] : Cache ℕ).length ≤ 1000 ∧
    ((setCachedData 0 ([] : Cache ℕ) "k" 7 60).length ≤ 1000 ∧
      (([] : Cache ℕ).length = 1000 → cacheHasKey ([] : Cache ℕ) "k" = false →
        setCachedData 0 ([] : Cache ℕ) "k" 7 60 =
          ([] : Cache ℕ).drop 1 ++ [("k", ⟨7, 0, 60⟩)])) :=
  ⟨by decide, cache_set_bound_evicts_oldest 0 [] "k" 7 60 (by decide)⟩

theorem cacheLookup_eq_none_of_not_has {V : Type} (c : Cache V) (key : String)
    (h : cacheHasKey c key = false) : cacheLookup c key = none := by
  unfold cacheLookup
  rw [List.find?_eq_none.mpr]
  intro e he heq
  have hny : c.any (fun e => decide (e.1 = key)) = true :=
    List.any_eq_true.mpr ⟨e, he, heq⟩
  rw [show cacheHasKey c key = c.any (fun e => decide (e.1 = key)) from rfl] at h
  rw [h] at hny
  exact Bool.false_ne_true hny

theorem cacheDelete_of_not_has {V : Type} (c : Cache V) (key : String)
    (h : cacheHasKey c key = false) : cacheDelete c key = c := by
  unfold cacheDelete
  apply List.eraseP_of_forall_not
  intro e he
  intro heq
  have hny : c.any (fun e => decide (e.1 = key)) = true :=
    List.any_eq_true.mpr ⟨e, he, by simpa using heq⟩
  rw [show cacheHasKey c key = c.any (fun e => decide (e.1 = key)) from rfl] at h
  rw [h] at hny
  exact Bool.false_ne_true hny

/-- C4 (amended): `get` returns the payload and leaves the cache untouched on
a fresh hit, returns `null` and leaves the cache untouched when the key is
absent, but on an expired entry it returns `null` *and deletes the entry*
(lazy expiry cleanup) — so a miss can mutate the cache. -/
theorem cache_get_contract {V : Type} (now : ℤ) (c : Cache V) (key : String) :
    (∀ e : CacheEntry V, cacheLookup c key = some e →
      now - e.timestamp < e.ttl →
      getCachedData now c key = (some e.data, c)) ∧
    (cacheHasKey c key = false → getCachedData now c key = (none, c)) ∧
    (∀ e : CacheEntry V, cacheLookup c key = some e →
      e.ttl ≤ now - e.timestamp →
      getCachedData now c key = (none, cacheDelete c key)) := by
  refine ⟨?_, ?_, ?_⟩
  · intro e he hfresh
    unfold getCachedData
    rw [he]
    show (if now - e.timestamp < e.ttl then (some e.data, c)
      else (none, cacheDelete c key)) = (some e.data, c)
    rw [if_pos hfresh]
  · intro h
    unfold getCachedData
    rw [cacheLookup_eq_none_of_not_has c key h, cacheDelete_of_not_has c key h]
  · intro e he hexp
    unfold getCachedData
    rw [he]
    show (if now - e.timestamp < e.ttl then (some e.data, c)
      else (none, cacheDelete c key)) = (none, cacheDelete c key)
    rw [if_neg (by omega)]

/-- Counterexample to C4 as stated: on a cache holding one expired entry, a
miss deletes the entry — `get` does mutate the cache. -/
theorem cache_get_miss_mutates_counterexample :
    (getCachedData 60000 ([("k", ⟨42, 0, 60000⟩)] : Cache ℕ) "k").1 = none ∧
    (getCachedData 60000 ([("k", ⟨42, 0, 60000⟩)] : Cache ℕ) "k").2 ≠
      ([("k", ⟨42, 0, 60000⟩)] : Cache ℕ) := by
  decide

/-- Witness for C4 (amended) exercising all three branches on concrete
caches. -/
theorem cache_get_contract_witness :
    getCachedData 5 ([("k", ⟨7, 0, 60⟩)] : Cache ℕ) "k" =
      (some 7, [("k", ⟨7, 0, 60⟩)]) ∧
    getCachedData 5 ([("k", ⟨7, 0, 60⟩)] : Cache ℕ) "a" =
      (none, [("k", ⟨7, 0, 60⟩)]) ∧
    getCachedData 100 ([("k", ⟨7, 0, 60⟩)] : Cache ℕ) "k" = (none, []) := by
  obtain ⟨h1, -, -⟩ := cache_get_contract 5 ([("k", ⟨7, 0, 60⟩)] : Cache ℕ) "k"
  obtain ⟨-, h2, -⟩ := cache_get_contract 5 ([("k", ⟨7, 0, 60⟩)] : Cache ℕ) "a"
  obtain ⟨-, -, h3⟩ := cache_get_contract 100 ([("k", ⟨7, 0, 60⟩)] : Cache ℕ) "k"
  refine ⟨h1 ⟨7, 0, 60⟩ rfl (by norm_num), h2 (by decide), ?_⟩
  rw [h3 ⟨7, 0, 60⟩ rfl (by norm_num)]
  decide

/-! ### Claim theorems: unified ticker sorting -/

/-- Quotes produced by the system carry one of the two home currencies; the
ticker comparator is only coherent on such quotes. -/
def ValidCur (q : Quote) : Prop := q.currency = "INR" ∨ q.currency = "USD"

theorem quoteLe_total (io : Bool) (a b : Quote)
    (ha : ValidCur a) (hb : ValidCur b) :
    quoteLe io a b = true ∨ quoteLe io b a = true := by
  cases io with
  | false =>
    unfold quoteLe
    simp only [Bool.false_eq_true, if_false, decide_eq_true_eq]
    exact le_total _ _
  | true =>
    unfold quoteLe
    rcases ha with ha | ha <;> rcases hb with hb | hb <;>
      simp [ha, hb, le_total]

theorem quoteLe_trans (io : Bool) (a b c : Quote)
    (ha : ValidCur a) (hb : ValidCur b) (hc : ValidCur c)
    (h1 : quoteLe io a b = true) (h2 : quoteLe io b c = true) :
    quoteLe io a c = true := by
  cases io with
  | false =>
    unfold quoteLe at h1 h2 ⊢
    simp only [Bool.false_eq_true, if_false, decide_eq_true_eq] at h1 h2 ⊢
    exact le_trans h2 h1
  | true =>
    unfold quoteLe at h1 h2 ⊢
    rcases ha with ha | ha <;> rcases hb with hb | hb <;>
      rcases hc with hc | hc <;>
      simp [ha, hb, hc] at h1 h2 ⊢ <;>
      linarith

/-- Unpack the comparator into the spec-level ordering facts. -/
theorem quoteLe_implies (io : Bool) (a b : Quote)
    (h : quoteLe io a b = true) :
    (io = true → ¬(a.currency = "USD" ∧ b.currency = "INR")) ∧
    (a.currency = b.currency → |b.changePercent| ≤ |a.changePercent|) ∧
    (io = false → |b.changePercent| ≤ |a.changePercent|) := by
  cases io with
  | false =>
    unfold quoteLe at h
    simp only [Bool.false_eq_true, if_false, decide_eq_true_eq] at h
    exact ⟨by simp, fun _ => h, fun _ => h⟩
  | true =>
    unfold quoteLe at h
    simp only [if_true] at h
    refine ⟨?_, ?_, by simp⟩
    · intro _ ⟨haUSD, hbINR⟩
      rw [if_neg (by simp [haUSD]), if_pos ⟨haUSD, hbINR⟩] at h
      exact Bool.false_ne_true h
    · intro hcur
      rw [if_neg (by rintro ⟨h1, h2⟩; rw [hcur, h2] at h1; exact absurd h1 (by decide)),
        if_neg (by rintro ⟨h1, h2⟩; rw [hcur, h2] at h1; exact absurd h1 (by decide))] at h
      exact of_decide_eq_true h

/-- C6: the unified ticker's `data` array is truncated to at most `limit`
quotes and is pairwise ordered: during Indian market hours no USD quote
precedes an INR quote, same-currency quotes are in descending
`|changePercent|` order, and outside Indian market hours the whole array is
in descending `|changePercent|` order. -/
theorem ticker_data_sorted_truncated (fetchI fetchG : String → Quote)
    (limit : ℕ) (io go ii ig : Bool) (now : ℤ)
    (hI : ∀ s, (fetchI s).currency = "INR")
    (hG : ∀ s, (fetchG s).currency = "USD") :
    (tickerResponse fetchI fetchG limit io go ii ig now).data.length ≤ limit ∧
    (tickerResponse fetchI fetchG limit io go ii ig now).data.Pairwise
      (fun a b =>
        (io = true → ¬(a.currency = "USD" ∧ b.currency = "INR")) ∧
        (a.currency = b.currency → |b.changePercent| ≤ |a.changePercent|) ∧
        (io = false → |b.changePercent| ≤ |a.changePercent|)) := by
  have hdata : (tickerResponse fetchI fetchG limit io go ii ig now).data =
      (sortLe (quoteLe io)
        ((if ii then (INDIAN_SYMBOLS.take (ceil60 limit)).map fetchI else []) ++
         (if ig then (GLOBAL_SYMBOLS.take (floor40 limit)).map fetchG else []))).take
        limit := rfl
  constructor
  · rw [hdata, List.length_take]
    exact min_le_left _ _
  · rw [hdata]
    have hvalid : ∀ x ∈
        ((if ii then (INDIAN_SYMBOLS.take (ceil60 limit)).map fetchI else []) ++
         (if ig then (GLOBAL_SYMBOLS.take (floor40 limit)).map fetchG else [])),
        ValidCur x := by
      intro x hx
      rcases List.mem_append.mp hx with hx | hx
      · cases ii with
        | false => simp at hx
        | true =>
          simp only [if_true] at hx
          obtain ⟨s, -, rfl⟩ := List.mem_map.mp hx
          exact Or.inl (hI s)
      · cases ig with
        | false => simp at hx
        | true =>
          simp only [if_true] at hx
          obtain ⟨s, -, rfl⟩ := List.mem_map.mp hx
          exact Or.inr (hG s)
    have hsorted := pairwise_sortLe
      (fun x y hx hy => quoteLe_total io x y hx hy)
      (fun x y z hx hy hz => quoteLe_trans io x y z hx hy hz)
      hvalid
    exact List.Pairwise.imp (fun h => quoteLe_implies io _ _ h)
      (List.Pairwise.sublist (List.take_sublist _ _) hsorted)

/-- Concrete INR quote used by witnesses. -/
def wQuoteINR : Quote :=
  { symbol := "RELIANCE", name := "Reliance Industries Ltd", price := 2800,
    change := 10, changePercent := 5/10, high := 2810, low := 2790,
    volume := 1000, previousClose := 2790, marketCap := 1892800,
    sector := "Oil & Gas", exchange := "NSE", currency := "INR",
    marketOpen := true, timestamp := "t", source := "Yahoo_Finance_Proxy",
    mock := false }

/-- Concrete USD quote used by witnesses. -/
def wQuoteUSD : Quote :=
  { symbol := "AAPL", name := "Apple Inc.", price := 175,
    change := -2, changePercent := -8/10, high := 176, low := 174,
    volume := 2000, previousClose := 177, marketCap := 2748,
    sector := "Technology", exchange := "NASDAQ", currency := "USD",
    marketOpen := false, timestamp := "t", source := "Alpha_Vantage_Global",
    mock := false }

/-- Witness for C6 at concrete resolvers and `limit = 2`. -/
theorem ticker_data_sorted_truncated_witness :
    (tickerResponse (fun _ => wQuoteINR) (fun _ => wQuoteUSD) 2 true false
      true true 0).data.length ≤ 2 ∧
    (tickerResponse (fun _ => wQuoteINR) (fun _ => wQuoteUSD) 2 true false
      true true 0).data.Pairwise
      (fun a b =>
        (true = true → ¬(a.currency = "USD" ∧ b.currency = "INR")) ∧
        (a.currency = b.currency → |b.changePercent| ≤ |a.changePercent|) ∧
        (true = false → |b.changePercent| ≤ |a.changePercent|)) :=
  ticker_data_sorted_truncated (fun _ => wQuoteINR) (fun _ => wQuoteUSD) 2
    true false true true 0 (fun _ => rfl) (fun _ => rfl)

/-! ### Claim theorems: single-market redirect -/

/-- Counterexample to C9 as stated: `indian=true&global=false&limit=6` does
not produce a JSON payload at the unified ticker endpoint at all — the
handler answers with a redirect to the dedicated Indian endpoint, so no
`summary.indian` / `summary.global` fields are served by this route. -/
theorem ticker_limit6_redirects_counterexample :
    tickerHandler ⟨some "true", some "false", some 6⟩ none
      (fun _ => wQuoteINR) (fun _ => wQuoteUSD) true true 0 =
      HandlerResult.redirect "/api/stocks/indian?limit=6" := by
  rfl

/-- C9 (amended): the request is redirected to
`/api/stocks/indian?limit=6`, and that endpoint's fresh response satisfies
`summary.total = data.length`, `data.length ≤ 6`, and identifies its market
by the `summary.market` string (there are no `indian`/`global` count
fields in the single-market summary). -/
theorem ticker_limit6_redirect_target_shape
    (cached : Option TickerResponse) (fetchI fetchG : String → Quote)
    (io go : Bool) (now : ℤ)
    (fetchI' : String → Quote) (io' : Bool) (now' : ℤ) :
    tickerHandler ⟨some "true", some "false", some 6⟩ cached fetchI fetchG
      io go now = HandlerResult.redirect "/api/stocks/indian?limit=6" ∧
    (indianResponse fetchI' 6 io' now').summary.total =
      (indianResponse fetchI' 6 io' now').data.length ∧
    (indianResponse fetchI' 6 io' now').data.length ≤ 6 ∧
    (indianResponse fetchI' 6 io' now').summary.market = "indian" := by
  refine ⟨rfl, rfl, ?_, rfl⟩
  show (sortLe absCpDescLe ((INDIAN_SYMBOLS.take 6).map fetchI')).length ≤ 6
  rw [length_sortLe, List.length_map, List.length_take]
  exact min_le_left _ _

/-- C10: whenever the parsed flags select exactly one market, the unified
ticker endpoint responds with a redirect to the dedicated single-market
endpoint, whose summary carries a `market` string (a different record shape
from the unified summary's `indian`/`global` counts). -/
theorem ticker_single_market_redirects (q : TickerQuery)
    (cached : Option TickerResponse) (fetchI fetchG : String → Quote)
    (io go : Bool) (now : ℤ)
    (hxor : includeIndianOf q ≠ includeGlobalOf q) :
    tickerHandler q cached fetchI fetchG io go now =
      HandlerResult.redirect
        ((if includeIndianOf q then "/api/stocks/indian?limit="
          else "/api/stocks/global?limit=") ++ toString (effLimit q.limit 15)) ∧
    (∀ (f : String → Quote) (l : ℕ) (o : Bool) (n : ℤ),
      (indianResponse f l o n).summary.market = "indian") ∧
    (∀ (f : String → Quote) (l : ℕ) (o : Bool) (n : ℤ),
      (globalResponse f l o n).summary.market = "global") := by
  refine ⟨?_, fun _ _ _ _ => rfl, fun _ _ _ _ => rfl⟩
  unfold tickerHandler
  cases hii : includeIndianOf q with
  | true =>
    have hgg : includeGlobalOf q = false := by
      cases hgq : includeGlobalOf q
      · rfl
      · rw [hii, hgq] at hxor; exact absurd rfl hxor
    simp [hgg]
  | false =>
    have hgg : includeGlobalOf q = true := by
      cases hgq : includeGlobalOf q
      · rw [hii, hgq] at hxor; exact absurd rfl hxor
      · rfl
    simp [hgg]

/-- Witness for C10 at a concrete Indian-only query. -/
theorem ticker_single_market_redirects_witness :
    includeIndianOf ⟨none, some "false", none⟩ ≠
      includeGlobalOf ⟨none, some "false", none⟩ ∧
    tickerHandler ⟨none, some "false", none⟩ none (fun _ => wQuoteINR)
      (fun _ => wQuoteUSD) false false 0 =
      HandlerResult.redirect "/api/stocks/indian?limit=15" ∧
    (indianResponse (fun _ => wQuoteINR) 3 true 0).summary.market = "indian" ∧
    (globalResponse (fun _ => wQuoteUSD) 3 true 0).summary.market = "global" := by
  obtain ⟨h1, h2, h3⟩ := ticker_single_market_redirects
    ⟨none, some "false", none⟩ none (fun _ => wQuoteINR) (fun _ => wQuoteUSD)
    false false 0 (by decide)
  exact ⟨by decide, h1, h2 _ _ _ _, h3 _ _ _ _⟩

/-! ### Claim theorems: numeric rounding and synthetic price bounds -/

theorem le_round2_div100 (m : ℤ) (x : ℚ) (h : (m : ℚ) / 100 ≤ x) :
    (m : ℚ) / 100 ≤ round2 x := by
  unfold round2 jsRound
  have h1 : (m : ℚ) ≤ x * 100 + 1/2 := by linarith
  have h2 : m ≤ ⌊x * 100 + 1/2⌋ := Int.le_floor.mpr h1
  have h3 : (m : ℚ) ≤ ((⌊x * 100 + 1/2⌋ : ℤ) : ℚ) := by exact_mod_cast h2
  linarith

/-- C7 (amended): every quote built by the enhanced module's four adapters
(Yahoo proxy, Financial Modeling Prep, Alpha Vantage, Twelve Data) and by
both synthetic generators has `price`, `change`, `changePercent`, `high`,
`low` and `previousClose` rounded to exactly two decimals; the two
change-deriving adapters (Yahoo, Twelve Data) set
`changePercent = round2(change / previousClose * 100)`, and `change = 10`
over `previousClose = 100` yields `changePercent = 10.00`; the legacy
`fetchAlphaVantageIndianStock` is the exception refuted separately. -/
theorem enhanced_quotes_rounded_2dp (symbol : String)
    (chart : ParsedYahooChart) (open_ : Bool) (ts : String)
    (fsym : String) (fd : ParsedFMPQuote) (fopen : Bool) (fts : String)
    (asym : String) (ag : ParsedGlobalQuote) (aopen : Bool) (ats : String)
    (tsym : String) (td : ParsedTwelveDataQuote) (topen : Bool) (tts : String)
    (msym : String) (sinT rnd volRnd : ℚ) (mopen : Bool) (mts : String)
    (gsym : String) (gsinT grnd gvolRnd : ℚ) (gopen : Bool) (gts : String) :
    Rounded2Quote (fetchYahooIndianStock symbol chart open_ ts) ∧
    Rounded2Quote (fetchFMPIndianStock fsym fd fopen fts) ∧
    Rounded2Quote (fetchAlphaVantageStock asym ag aopen ats) ∧
    Rounded2Quote (fetchTwelveDataStock tsym td topen tts) ∧
    Rounded2Quote (generateEnhancedMockData msym sinT rnd volRnd mopen mts) ∧
    Rounded2Quote (generateGlobalMockData gsym gsinT grnd gvolRnd gopen gts) ∧
    (fetchYahooIndianStock symbol chart open_ ts).changePercent =
      round2 (((chart.currentPrice - chart.previousClose) /
        chart.previousClose) * 100) ∧
    (fetchTwelveDataStock tsym td topen tts).changePercent =
      round2 ((((td.close.getD 0) - (td.previous_close.getD (td.close.getD 0))) /
        (td.previous_close.getD (td.close.getD 0))) * 100) ∧
    round2 ((10 : ℚ) / 100 * 100) = 10 := by
  have h10 : round2 ((10 : ℚ) / 100 * 100) = 10 := by
    rw [show ((10 : ℚ) / 100 * 100) = ((10 : ℤ) : ℚ) from by norm_num,
      round2_intCast]
    norm_num
  unfold Rounded2Quote
  refine ⟨?_, ?_, ?_, ?_, ?_, ?_, rfl, rfl, h10⟩
  all_goals
    exact ⟨isRounded2_round2 _, isRounded2_round2 _, isRounded2_round2 _,
      isRounded2_round2 _, isRounded2_round2 _, isRounded2_round2 _⟩

/-- Counterexample to C7 as stated: the legacy Alpha Vantage Indian adapter
returns the upstream price verbatim — `123.456` is not rounded to two
decimal places. -/
theorem av_indian_adapter_unrounded_counterexample :
    ¬ IsRounded2 ((fetchAlphaVantageIndianStock "RELIANCE"
      ⟨some (123456/1000), some (1/2), some (1/2), some (1/2), some (1/2),
        some 100, some (1/2)⟩ false "t").price) := by
  have hp : (fetchAlphaVantageIndianStock "RELIANCE"
      ⟨some (123456/1000), some (1/2), some (1/2), some (1/2), some (1/2),
        some 100, some (1/2)⟩ false "t").price = 123456/1000 := rfl
  rw [hp]
  unfold IsRounded2
  intro h
  rw [show ((123456/1000 : ℚ) * 100).den = 5 from by norm_num [Rat.den]] at h
  exact absurd h (by norm_num)

/-- The enabled-provider list degenerates to the Yahoo fallback when every
credential is absent. -/
theorem enabledProviders_no_creds :
    enabledProviders ⟨none, none, none⟩ = [Provider.yahoo] := by
  rw [enabledProviders_eq]
  decide

/-- C8: the synthetic generator's price never falls below the 0.8 floor of
the symbol's baseline, and resolving RELIANCE with every credential absent
and the credential-free Yahoo adapter failing yields the synthetic quote —
mock source tag, `mock = true`, and price within `[0.8, 1.3]` of the 2800
baseline. -/
theorem reliance_synthetic_quote_bounds
    (outcomes : Provider → Option Quote) (sinT rnd volRnd : ℚ)
    (open_ : Bool) (ts : String)
    (hyah : outcomes Provider.yahoo = none)
    (hsin : -1 ≤ sinT ∧ sinT ≤ 1) (hrnd : 0 ≤ rnd ∧ rnd < 1) :
    (∀ (symbol : String) (sinT' rnd' volRnd' : ℚ) (open' : Bool) (ts' : String),
      (4/5 : ℚ) * (getIndianBasePrice symbol : ℚ) ≤
        (generateEnhancedMockData symbol sinT' rnd' volRnd' open' ts').price) ∧
    (fetchIndianStockData ⟨none, none, none⟩ outcomes "RELIANCE" sinT rnd
      volRnd open_ ts).source = "Enhanced_Mock_Data" ∧
    (fetchIndianStockData ⟨none, none, none⟩ outcomes "RELIANCE" sinT rnd
      volRnd open_ ts).mock = true ∧
    (4/5 : ℚ) * 2800 ≤ (fetchIndianStockData ⟨none, none, none⟩ outcomes
      "RELIANCE" sinT rnd volRnd open_ ts).price ∧
    (fetchIndianStockData ⟨none, none, none⟩ outcomes "RELIANCE" sinT rnd
      volRnd open_ ts).price ≤ (13/10 : ℚ) * 2800 := by
  have hfloor : ∀ (symbol : String) (sinT' rnd' volRnd' : ℚ) (open' : Bool)
      (ts' : String),
      (4/5 : ℚ) * (getIndianBasePrice symbol : ℚ) ≤
        (generateEnhancedMockData symbol sinT' rnd' volRnd' open' ts').price := by
    intro symbol sinT' rnd' volRnd' open' ts'
    show (4/5 : ℚ) * (getIndianBasePrice symbol : ℚ) ≤ round2 _
    have hcast : ((80 * (getIndianBasePrice symbol : ℤ) : ℤ) : ℚ) / 100 =
        (4/5 : ℚ) * (getIndianBasePrice symbol : ℚ) := by
      push_cast
      ring
    rw [← hcast]
    apply le_round2_div100
    rw [hcast]
    exact le_trans (le_of_eq (by ring)) (le_max_right _ _)
  have hfail : ∀ p ∈ enabledProviders ⟨none, none, none⟩, outcomes p = none := by
    rw [enabledProviders_no_creds]
    intro p hp
    rw [List.mem_singleton.mp hp]
    exact hyah
  have heq : fetchIndianStockData ⟨none, none, none⟩ outcomes "RELIANCE" sinT
      rnd volRnd open_ ts =
      generateEnhancedMockData "RELIANCE" sinT rnd volRnd open_ ts := by
    unfold fetchIndianStockData
    rw [resolveTrace_all_fail outcomes _ hfail]
  have hbase : getIndianBasePrice "RELIANCE" = 2800 := by decide
  refine ⟨hfloor, by rw [heq]; rfl, by rw [heq]; rfl, ?_, ?_⟩
  · rw [heq]
    have := hfloor "RELIANCE" sinT rnd volRnd open_ ts
    rw [hbase] at this
    exact_mod_cast this
  · rw [heq]
    have hb : ((getIndianBasePrice "RELIANCE" : ℕ) : ℚ) = 2800 := by
      rw [hbase]; norm_num
    have hv : ((getIndianVolatility "RELIANCE" : ℕ) : ℚ) = 80 := by
      rw [show getIndianVolatility "RELIANCE" = 80 from by decide]; norm_num
    show round2 (max (((getIndianBasePrice "RELIANCE" : ℕ) : ℚ) +
        (sinT * (1/2) + (rnd - 1/2) * 2) *
          ((getIndianVolatility "RELIANCE" : ℕ) : ℚ))
        (((getIndianBasePrice "RELIANCE" : ℕ) : ℚ) * (4/5))) ≤
      (13/10 : ℚ) * 2800
    rw [hb, hv]
    have h1 : max ((2800 : ℚ) + (sinT * (1/2) + (rnd - 1/2) * 2) * 80)
        ((2800 : ℚ) * (4/5)) ≤ ((3640 : ℤ) : ℚ) := by
      apply max_le
      · have htv : (sinT * (1/2) + (rnd - 1/2) * 2) * 80 ≤ 120 := by
          nlinarith [hsin.2, hrnd.2]
        push_cast
        linarith
      · push_cast
        norm_num
    have h2 := round2_le_intCast_of_le h1
    push_cast at h2
    linarith

/-- Witness for C8 at concrete oracle values. -/
theorem reliance_synthetic_quote_bounds_witness :
    ((fun _ : Provider => (none : Option Quote)) Provider.yahoo = none ∧
      ((-1 : ℚ) ≤ 0 ∧ (0 : ℚ) ≤ 1) ∧ ((0 : ℚ) ≤ 1/2 ∧ (1/2 : ℚ) < 1)) ∧
    (4/5 : ℚ) * (getIndianBasePrice "TCS" : ℚ) ≤
      (generateEnhancedMockData "TCS" 0 (1/2) 0 false "t").price ∧
    (fetchIndianStockData ⟨none, none, none⟩ (fun _ => none) "RELIANCE" 0
      (1/2) 0 false "t").source = "Enhanced_Mock_Data" ∧
    (fetchIndianStockData ⟨none, none, none⟩ (fun _ => none) "RELIANCE" 0
      (1/2) 0 false "t").mock = true ∧
    (4/5 : ℚ) * 2800 ≤ (fetchIndianStockData ⟨none, none, none⟩
      (fun _ => none) "RELIANCE" 0 (1/2) 0 false "t").price ∧
    (fetchIndianStockData ⟨none, none, none⟩ (fun _ => none) "RELIANCE" 0
      (1/2) 0 false "t").price ≤ (13/10 : ℚ) * 2800 := by
  obtain ⟨hf, hs, hm, hlo, hhi⟩ := reliance_synthetic_quote_bounds
    (fun _ => none) 0 (1/2) 0 false "t" rfl ⟨by norm_num, by norm_num⟩
    ⟨by norm_num, by norm_num⟩
  exact ⟨⟨rfl, ⟨by norm_num, by norm_num⟩, ⟨by norm_num, by norm_num⟩⟩,
    hf "TCS" 0 (1/2) 0 false "t", hs, hm, hlo, hhi⟩

/-- Counterexample to C8 as stated: with every provider credential absent the
credential-free Yahoo proxy adapter is still enabled, and when its upstream
call succeeds the resolver returns that live quote — `source` is the Yahoo
tag, not the synthetic tag, and `mock` is not set. -/
theorem reliance_yahoo_success_counterexample :
    (fetchIndianStockData ⟨none, none, none⟩
      (fun _ => some (fetchYahooIndianStock "RELIANCE" ⟨2850, 2800, none, none, none⟩
        false "t")) "RELIANCE" 0 (1/2) 0 false "t").source =
      "Yahoo_Finance_Proxy" ∧
    (fetchIndianStockData ⟨none, none, none⟩
      (fun _ => some (fetchYahooIndianStock "RELIANCE" ⟨2850, 2800, none, none, none⟩
        false "t")) "RELIANCE" 0 (1/2) 0 false "t").source ≠
      "Enhanced_Mock_Data" ∧
    (fetchIndianStockData ⟨none, none, none⟩
      (fun _ => some (fetchYahooIndianStock "RELIANCE" ⟨2850, 2800, none, none, none⟩
        false "t")) "RELIANCE" 0 (1/2) 0 false "t").mock = false := by
  have hs : (fetchIndianStockData ⟨none, none, none⟩
      (fun _ => some (fetchYahooIndianStock "RELIANCE" ⟨2850, 2800, none, none, none⟩
        false "t")) "RELIANCE" 0 (1/2) 0 false "t").source =
      "Yahoo_Finance_Proxy" := rfl
  refine ⟨hs, ?_, rfl⟩
  rw [hs]
  decide
